import Mathlib

/-!
Shallow embedding of the HelloBuddy reward-settlement backend
(Node/Express + MySQL). Tables become lists of rows, route handlers become
pure functions from a request and a database state to a response and a new
database state. Monetary amounts (DECIMAL columns, JS numbers holding
currency) are modelled as exact integer counts of hundredths; timestamps as natural-number
milliseconds. Transactions roll back on failure, so every error branch
returns the input database unchanged.
-/

namespace HelloBuddy

/-- Monetary amounts in hundredths of a rupee: the exact resolution of the
`DECIMAL(10,2)` / `DECIMAL(4,2)` columns holding earnings, rewards and
withdrawal amounts. One rupee is `100 : Money`. -/
abbrev Money := Int

/-- One rupee, in `Money` units. -/
def rupee : Money := 100

/-- Withdrawal status: `status ENUM('pending','approved','declined')`
(server/db/database.js, withdrawals table). -/
inductive WStatus
  | pending
  | approved
  | declined
deriving DecidableEq, Repr

/-- A row of the `users` table (server/db/database.js). Only the columns the
settlement, withdrawal, auth and registration paths read or write are kept:
`id`, `email`, `instagram_id`, `batch_letter`, `earnings DECIMAL(10,2)`,
`is_verified`, `is_admin`, `permanent_login_code VARCHAR(6) UNIQUE`. -/
structure UserRow where
  id : Nat
  email : String
  instagramId : String
  batchLetter : String
  earnings : Money
  isVerified : Bool
  isAdmin : Bool
  permanentLoginCode : Option String
deriving DecidableEq, Repr

/-- A row of the `posts` table: `reward_amount DECIMAL(4,2)`, `is_active`,
`click_count INT DEFAULT 0`, `click_limit INT DEFAULT NULL`,
`auto_delete_enabled BOOLEAN DEFAULT FALSE`. -/
structure Post where
  id : Nat
  title : String
  rewardAmount : Money
  isActive : Bool
  clickCount : Nat
  clickLimit : Option Nat
  autoDeleteEnabled : Bool
  engagementType : String
deriving DecidableEq, Repr

/-- A row of the `user_clicks` table, with the reward frozen at click time.
The schema carries `UNIQUE KEY unique_user_post (user_id, post_id)`. -/
structure Click where
  userId : Nat
  postId : Nat
  rewardAmount : Money
  clickedAt : Nat
deriving DecidableEq, Repr

/-- A row of the `withdrawals` table. -/
structure Withdrawal where
  id : Nat
  userId : Nat
  amount : Money
  method : String
  accountDetails : String
  status : WStatus
  adminNotes : Option String
  createdAt : Nat
  processedAt : Option Nat
deriving DecidableEq, Repr

/-- A row of the `sessions` table: `id VARCHAR(255) PRIMARY KEY`,
`user_id`, `expires_at`. -/
structure Session where
  id : String
  userId : Nat
  expiresAt : Nat
deriving DecidableEq, Repr

/-- A row of the `batches` table: `letter VARCHAR(10) PRIMARY KEY`,
`user_count INT DEFAULT 0`, `is_active BOOLEAN DEFAULT TRUE`. -/
structure Batch where
  letter : String
  userCount : Nat
  isActive : Bool
deriving DecidableEq, Repr

/-- The durable state: the tables the claims touch. (The
`verification_codes` and `rate_limits` tables are not read or written by
any claimed behaviour and are omitted.) -/
structure DB where
  users : List UserRow
  posts : List Post
  clicks : List Click
  withdrawals : List Withdrawal
  sessions : List Session
  batches : List Batch
deriving DecidableEq, Repr

/-- `UPDATE users SET earnings = earnings + ? WHERE id = ?`. -/
def creditUser (uid : Nat) (amt : Money) (users : List UserRow) : List UserRow :=
  users.map fun u => if u.id == uid then { u with earnings := u.earnings + amt } else u

/-- `UPDATE users SET earnings = earnings - ? WHERE id = ?`. -/
def debitUser (uid : Nat) (amt : Money) (users : List UserRow) : List UserRow :=
  users.map fun u => if u.id == uid then { u with earnings := u.earnings - amt } else u

/-- `UPDATE posts SET click_count = ? WHERE id = ?`. -/
def setClickCount (pid n : Nat) (posts : List Post) : List Post :=
  posts.map fun p => if p.id == pid then { p with clickCount := n } else p

/-- The JSON body of `POST /api/user/submit-click` (routes/user.js):
`const { postId, socialLink, autoApprove } = req.body;`. Only `postId` is
ever read by the handler; the other two fields are destructured and then
unused. -/
structure SubmitBody where
  postId : Option Nat
  socialLink : Option String
  autoApprove : Option Bool
deriving DecidableEq, Repr

/-- Responses of `POST /api/user/submit-click`: 400 "Post ID is required",
404 "Post not found", 400 "This post is no longer active", 400 "You have
already submitted this task", or the success payload
`{ earnings, autoDeleted }`. -/
inductive SubmitResult
  | postIdRequired
  | notFound
  | inactive
  | alreadySubmitted
  | ok (reward : Money) (autoDeleted : Bool)
deriving DecidableEq, Repr

/-- The auto-delete trigger of the submit-click handler:
`post.auto_delete_enabled && post.click_limit && newClickCount >= post.click_limit`
with `newClickCount = (post.click_count || 0) + 1` (JS truthiness makes a
null or zero `click_limit` disable the check). -/
def autoDeleteFires (post : Post) : Bool :=
  post.autoDeleteEnabled &&
    (match post.clickLimit with
     | some l => decide (l ≠ 0) && decide (l ≤ post.clickCount + 1)
     | none => false)

/-- The `POST /api/user/submit-click` handler (routes/user.js). Inside one
transaction: load the post by id (404 when absent), reject inactive posts,
reject when a `user_clicks` row for (user, post) already exists, insert the
click freezing the post's current `reward_amount`, credit the user's
earnings by that amount, set `click_count` to the old count plus one, and
when `auto_delete_enabled` and `click_limit` is non-null and non-zero (JS
truthiness) and the new count reaches it, delete all of the post's clicks
and the post itself, reporting `autoDeleted = true`. -/
def submitClick (userId now : Nat) (body : SubmitBody) (db : DB) : SubmitResult × DB :=
  match body.postId with
  | none => (.postIdRequired, db)
  | some postId =>
    match db.posts.find? (fun p => p.id == postId) with
    | none => (.notFound, db)
    | some post =>
      if post.isActive = false then (.inactive, db)
      else if db.clicks.any (fun c => c.userId == userId && c.postId == postId) then
        (.alreadySubmitted, db)
      else
        let click : Click :=
          { userId := userId, postId := postId
            rewardAmount := post.rewardAmount, clickedAt := now }
        let newClickCount := post.clickCount + 1
        if autoDeleteFires post then
          (.ok post.rewardAmount true,
            { db with
                clicks := (click :: db.clicks).filter (fun c => c.postId != postId)
                users := creditUser userId post.rewardAmount db.users
                posts := (setClickCount postId newClickCount db.posts).filter
                  (fun p => p.id != postId) })
        else
          (.ok post.rewardAmount false,
            { db with
                clicks := click :: db.clicks
                users := creditUser userId post.rewardAmount db.users
                posts := setClickCount postId newClickCount db.posts })

/-- The `amount` field of the `POST /api/user/withdraw` body as the handler
sees it: falsy (absent, caught by the all-fields-required check), a string
that `parseFloat` cannot parse (NaN), or a parsed number. -/
inductive JsNum
  | missing
  | nan
  | num (q : Money)
deriving DecidableEq, Repr

/-- The JSON body of `POST /api/user/withdraw` (routes/user.js):
`const { method, amount, accountDetails } = req.body;`. `none` models a
falsy field, caught by `if (!method || !amount || !accountDetails)`. -/
structure WithdrawBody where
  method : Option String
  amount : JsNum
  accountDetails : Option String
deriving DecidableEq, Repr

/-- Responses of `POST /api/user/withdraw`. -/
inductive WithdrawResult
  | fieldsRequired
  | invalidAmount
  | belowMethodMinimum (method : String)
  | userNotFound
  | insufficientBalance
  | ok (amount : Money) (method : String)
deriving DecidableEq, Repr

/-- `const minAmounts = { amazon: 100, phonepe: 500 };` — a JS object
lookup: any other method (including the enum's third value `paytm`)
yields `undefined`, and `withdrawalAmount < undefined` is false, so no
minimum is enforced for it. -/
def minAmounts (method : String) : Option Money :=
  if method == "amazon" then some (100 * rupee)
  else if method == "phonepe" then some (500 * rupee)
  else none

/-- AUTO_INCREMENT id for a freshly inserted withdrawal row. -/
def nextWithdrawalId (db : DB) : Nat :=
  (db.withdrawals.map Withdrawal.id).foldr max 0 + 1

/-- The `POST /api/user/withdraw` handler (routes/user.js). Checks, in
order: all three fields present (truthy); `parseFloat(amount)` is a number
and positive; `withdrawalAmount < minAmounts[method]` (false whenever the
method has no entry); the user row exists; amount at most the current
earnings. On success, inside one transaction: insert a `pending`
withdrawal row and debit the user's earnings by the amount. The handler
performs no validation of `accountDetails` beyond its presence. -/
def withdraw (userId now : Nat) (body : WithdrawBody) (db : DB) : WithdrawResult × DB :=
  match body.method, body.amount, body.accountDetails with
  | some method, .num q, some accountDetails =>
    if q ≤ 0 then (.invalidAmount, db)
    else if (match minAmounts method with
             | some m => decide (q < m)
             | none => false) then
      (.belowMethodMinimum method, db)
    else
      match db.users.find? (fun u => u.id == userId) with
      | none => (.userNotFound, db)
      | some user =>
        if user.earnings < q then (.insufficientBalance, db)
        else
          let w : Withdrawal :=
            { id := nextWithdrawalId db, userId := userId, amount := q
              method := method, accountDetails := accountDetails
              status := .pending, adminNotes := none
              createdAt := now, processedAt := none }
          (.ok q method,
            { db with
                withdrawals := w :: db.withdrawals
                users := debitUser userId q db.users })
  | some _, .nan, some _ => (.invalidAmount, db)
  | _, _, _ => (.fieldsRequired, db)

/-- Responses of `PUT /api/admin/withdrawals/:id/process` (routes/admin.js). -/
inductive ProcessResult
  | invalidStatus
  | notFoundOrProcessed
  | ok (id : Nat) (status : WStatus) (amount : Money) (refunded : Bool)
deriving DecidableEq, Repr

/-- The `PUT /api/admin/withdrawals/:id/process` handler (routes/admin.js).
Rejects a decision outside `['approved','declined']`; selects the
withdrawal `WHERE w.id = ? AND w.status = 'pending'` joined to its user
(404 "Withdrawal not found or already processed" otherwise); on
`declined`, credits the user's earnings by the stored `amount` (the full
amount, no charge adjustment); in both outcomes sets only `status`,
`processed_at` and `admin_notes` on the withdrawal row. -/
def processWithdrawal (wid : Nat) (status : String) (notes : Option String)
    (now : Nat) (db : DB) : ProcessResult × DB :=
  if !(status == "approved" || status == "declined") then (.invalidStatus, db)
  else
    match db.withdrawals.find? (fun w => w.id == wid && w.status == WStatus.pending) with
    | none => (.notFoundOrProcessed, db)
    | some w =>
      if db.users.all (fun u => u.id != w.userId) then (.notFoundOrProcessed, db)
      else
        let newStatus := if status == "declined" then WStatus.declined else WStatus.approved
        let users1 := if status == "declined" then creditUser w.userId w.amount db.users else db.users
        let withdrawals1 := db.withdrawals.map fun x =>
          if x.id == wid then
            { x with status := newStatus, processedAt := some now, adminNotes := notes }
          else x
        (.ok wid newStatus w.amount (status == "declined"),
          { db with users := users1, withdrawals := withdrawals1 })

/-- Seven days in milliseconds: the session window used by both
`Date.now() + 7 * 24 * 60 * 60 * 1000` at login and
`DATE_ADD(NOW(), INTERVAL 7 DAY)` in the sliding update. -/
def sevenDaysMs : Nat := 7 * 24 * 60 * 60 * 1000

/-- One day in milliseconds. -/
def oneDayMs : Nat := 24 * 60 * 60 * 1000

/-- The session lookup shared by every authenticated path:
`SELECT ... FROM sessions s JOIN users u ON s.user_id = u.id
WHERE s.id = ? AND s.expires_at > NOW()`. -/
def findValidSession (sid : String) (now : Nat) (db : DB) : Option (Session × UserRow) :=
  match db.sessions.find? (fun s => s.id == sid && decide (now < s.expiresAt)) with
  | none => none
  | some s =>
    match db.users.find? (fun u => u.id == s.userId) with
    | none => none
    | some u => some (s, u)

/-- Outcomes of the authentication middlewares. -/
inductive AuthResult
  | noToken
  | invalidSession
  | ok (u : UserRow)
deriving DecidableEq, Repr

/-- `sessionMiddleware` (server/middleware/auth.js), mounted in front of
`/api/user` and `/api/admin` (index.js). Reads the token from the
`sessionId` cookie only; on a valid, unexpired session it slides the
expiry: `UPDATE sessions SET expires_at = DATE_ADD(NOW(), INTERVAL 7 DAY)
WHERE id = ?`, and attaches the joined user. -/
def sessionMiddleware (cookieSid : Option String) (now : Nat) (db : DB) : AuthResult × DB :=
  match cookieSid with
  | none => (.noToken, db)
  | some sid =>
    match findValidSession sid now db with
    | none => (.invalidSession, db)
    | some (_, u) =>
      (.ok u,
        { db with
            sessions := db.sessions.map fun s =>
              if s.id == sid then { s with expiresAt := now + sevenDaysMs } else s })

/-- `sessionAuth` (routes/user.js): reads the token from the `sessionId`
cookie or, failing that, the `Authorization: Bearer` header; validates it
with the same SELECT, attaches the user, and performs no write — in
particular it does not touch `expires_at`. -/
def sessionAuth (cookieSid bearerSid : Option String) (now : Nat) (db : DB) : AuthResult × DB :=
  match cookieSid.orElse (fun _ => bearerSid) with
  | none => (.noToken, db)
  | some sid =>
    match findValidSession sid now db with
    | none => (.invalidSession, db)
    | some (_, u) => (.ok u, db)

/-- The `GET /api/auth/me` handler (server/routes/auth.js). `/api/auth` is
mounted without `sessionMiddleware` (index.js), so this endpoint does its
own lookup: cookie or Bearer token, the same validating SELECT, and no
write — the session row, expiry included, is left exactly as it was. -/
def authMe (cookieSid bearerSid : Option String) (now : Nat) (db : DB) : AuthResult × DB :=
  match cookieSid.orElse (fun _ => bearerSid) with
  | none => (.noToken, db)
  | some sid =>
    match findValidSession sid now db with
    | none => (.invalidSession, db)
    | some (_, u) => (.ok u, db)

/-- Result of a full request through the middleware chain. -/
inductive EndpointResult (α : Type)
  | authFailed (r : AuthResult)
  | handled (a : α)
deriving DecidableEq, Repr

/-- A full `POST /api/user/submit-click` request as deployed (index.js):
`app.use('/api/user', sessionMiddleware, userRoutes)` runs
`sessionMiddleware` first (sliding the expiry), then the router's own
`sessionAuth`, then the handler with the authenticated user's id. Neither
middleware nor the handler ever consults `is_verified`. -/
def submitClickEndpoint (cookieSid bearerSid : Option String) (now : Nat)
    (body : SubmitBody) (db : DB) : EndpointResult SubmitResult × DB :=
  match sessionMiddleware cookieSid now db with
  | (.ok _, db1) =>
    match sessionAuth cookieSid bearerSid now db1 with
    | (.ok u, db2) =>
      let r := submitClick u.id now body db2
      (.handled r.1, r.2)
    | (r, db2) => (.authFailed r, db2)
  | (r, db1) => (.authFailed r, db1)

/-- A full `POST /api/user/withdraw` request as deployed, through the same
chain as `submitClickEndpoint`. -/
def withdrawEndpoint (cookieSid bearerSid : Option String) (now : Nat)
    (body : WithdrawBody) (db : DB) : EndpointResult WithdrawResult × DB :=
  match sessionMiddleware cookieSid now db with
  | (.ok _, db1) =>
    match sessionAuth cookieSid bearerSid now db1 with
    | (.ok u, db2) =>
      let r := withdraw u.id now body db2
      (.handled r.1, r.2)
    | (r, db2) => (.authFailed r, db2)
  | (r, db1) => (.authFailed r, db1)

/-- `s.slice(-n)` on a JS string: the last `n` characters (the whole
string when shorter). -/
def sliceLast (n : Nat) (s : String) : String :=
  String.mk (s.data.drop (s.data.length - n))

/-- `s.padStart(2, '0')`. -/
def padStart2 (s : String) : String :=
  if s.length < 2 then String.mk (List.replicate (2 - s.length) '0') ++ s else s

/-- `generateUniquePermanentCode` (server/routes/auth.js):
`Date.now().toString().slice(-4)` concatenated with
`Math.floor(Math.random() * 100).toString().padStart(2, '0')`. Despite its
name it involves no uniqueness check or retry; `rand` stands for the drawn
value `Math.floor(Math.random() * 100)` (a natural below 100). -/
def generateUniquePermanentCode (nowMs rand : Nat) : String :=
  sliceLast 4 (toString nowMs) ++ padStart2 (toString rand)

/-- `ORDER BY letter ASC LIMIT 1` over a batch list (letters are the
primary key, hence pairwise distinct). -/
def minLetterBatch (bs : List Batch) : Option Batch :=
  bs.foldl (fun acc b =>
    match acc with
    | none => some b
    | some a => if b.letter < a.letter then some b else some a) none

/-- `ORDER BY letter DESC LIMIT 1` over a batch list. -/
def maxLetterBatch (bs : List Batch) : Option Batch :=
  bs.foldl (fun acc b =>
    match acc with
    | none => some b
    | some a => if a.letter < b.letter then some b else some a) none

/-- `String.fromCharCode(s.charCodeAt(0) + 1)`: successor of the first
character's code point, as a one-character string. (Batch letters are
never empty; the default for an empty string is immaterial.) -/
def jsCharSucc (s : String) : String :=
  String.singleton (Char.ofNat ((s.data.headD 'A').toNat + 1))

/-- `getNextBatch` (server/routes/auth.js, the one the `/register` route
calls): return the lexicographically first active batch with
`user_count < 1000`; otherwise take the last batch in letter order and
mint `String.fromCharCode(lastLetter.charCodeAt(0) + 1)` — with no
special case for `'Z'` or for multi-letter labels — inserting it with
`INSERT IGNORE`. -/
def getNextBatch (db : DB) : String × DB :=
  match minLetterBatch (db.batches.filter fun b => b.isActive && b.userCount < 1000) with
  | some b => (b.letter, db)
  | none =>
    let nextLetter :=
      match maxLetterBatch db.batches with
      | none => "A"
      | some last => jsCharSucc last.letter
    (nextLetter,
      if db.batches.any (fun b => b.letter == nextLetter) then db
      else { db with
               batches := db.batches ++ [{ letter := nextLetter, userCount := 0, isActive := true }] })

/-- The label-successor step of `createNextBatch`
(server/db/database.js): `'Z' → 'AA'`; a single letter advances its code
point; a multi-letter label advances its last character. -/
def nextBatchLetterDb (lastLetter : String) : String :=
  if lastLetter == "Z" then "AA"
  else if lastLetter.length == 1 then jsCharSucc lastLetter
  else
    String.mk lastLetter.data.dropLast ++
      String.singleton (Char.ofNat ((lastLetter.data.getLastD 'A').toNat + 1))

/-- `createNextBatch` (server/db/database.js): mint the successor of the
last letter in order and insert it (plain INSERT; a duplicate key is
caught and the function falls back to returning `'A'`). This is the
repository's second, fuller implementation of batch minting; the
`/register` route calls `getNextBatch` instead. -/
def createNextBatch (db : DB) : String × DB :=
  let nextLetter :=
    match maxLetterBatch db.batches with
    | none => "A"
    | some last => nextBatchLetterDb last.letter
  if db.batches.any (fun b => b.letter == nextLetter) then ("A", db)
  else (nextLetter,
    { db with
        batches := db.batches ++ [{ letter := nextLetter, userCount := 0, isActive := true }] })

/-- AUTO_INCREMENT id for a freshly inserted user row. -/
def nextUserId (db : DB) : Nat :=
  (db.users.map UserRow.id).foldr max 0 + 1

/-- Responses of `POST /api/auth/register` that the transactional core can
produce. `registrationConflict` is the 500 "Registration conflict. Please
try again." sent when the INSERT hits `ER_DUP_ENTRY` on
`permanent_login_code`. -/
inductive RegisterResult
  | emailAlreadyRegistered
  | instagramTaken
  | registrationConflict
  | ok (batchLetter : String) (permanentCode : String) (userId : Nat)
deriving DecidableEq, Repr

/-- The transactional core of `POST /api/auth/register`
(server/routes/auth.js, after the request-shape validation): count
verified users with this email and users with this Instagram handle,
reject duplicates; delete the surviving unverified row with this email
(MAX(id)); pick the batch via `getNextBatch`; generate the permanent code
(once — no retry loop); insert the user. The `users` table's UNIQUE
constraint on `permanent_login_code` makes the insert fail with
`ER_DUP_ENTRY` when the code is already taken, which rolls the whole
transaction back and surfaces as `registrationConflict`. Otherwise the
chosen batch's `user_count` is incremented and the registration succeeds.
(Verification-code issuance and email delivery are fire-and-forget side
channels not modelled here.) -/
def registerUser (email instagramId : String) (nowMs rand : Nat) (db : DB) :
    RegisterResult × DB :=
  let verifiedEmailCount := (db.users.filter fun u => u.email == email && u.isVerified).length
  let instagramCount := (db.users.filter fun u => u.instagramId == instagramId).length
  if verifiedEmailCount > 0 then (.emailAlreadyRegistered, db)
  else if instagramCount > 0 then (.instagramTaken, db)
  else
    let db1 :=
      match ((db.users.filter fun u => u.email == email && !u.isVerified).map UserRow.id).max? with
      | some i => { db with users := db.users.filter fun u => u.id != i }
      | none => db
    let step := getNextBatch db1
    let batchLetter := step.1
    let db2 := step.2
    let permanentCode := generateUniquePermanentCode nowMs rand
    if db2.users.any (fun u => u.permanentLoginCode == some permanentCode) then
      (.registrationConflict, db)
    else
      let newUser : UserRow :=
        { id := nextUserId db, email := email, instagramId := instagramId
          batchLetter := batchLetter, earnings := 0, isVerified := false
          isAdmin := false, permanentLoginCode := some permanentCode }
      (.ok batchLetter permanentCode newUser.id,
        { db2 with
            users := newUser :: db2.users
            batches := db2.batches.map fun b =>
              if b.letter == batchLetter then { b with userCount := b.userCount + 1 } else b })

/-! ### Concrete states used by witnesses and counterexamples -/

/-- A verified user with no earnings. -/
def aliceRow : UserRow :=
  { id := 1, email := "alice@mail.test", instagramId := "alice_ig", batchLetter := "A"
    earnings := 0, isVerified := true, isAdmin := false, permanentLoginCode := some "111111" }

/-- An active post with no click limit. -/
def plainPost : Post :=
  { id := 1, title := "like this", rewardAmount := 15, isActive := true
    clickCount := 0, clickLimit := none, autoDeleteEnabled := false, engagementType := "like" }

/-- An active auto-delete post with click limit 1. -/
def limitOnePost : Post :=
  { id := 1, title := "limited", rewardAmount := 15, isActive := true
    clickCount := 0, clickLimit := some 1, autoDeleteEnabled := true, engagementType := "like" }

/-- An active auto-delete post with click limit 2 that has already been
settled once. -/
def limitTwoPost : Post :=
  { id := 1, title := "limited2", rewardAmount := 15, isActive := true
    clickCount := 1, clickLimit := some 2, autoDeleteEnabled := true, engagementType := "like" }

/-- State for the plain double-submission scenario. -/
def dbPlain : DB :=
  { users := [aliceRow], posts := [plainPost], clicks := [], withdrawals := []
    sessions := [], batches := [] }

/-- State for the auto-delete-on-first-click scenario. -/
def dbAuto : DB :=
  { users := [aliceRow], posts := [limitOnePost], clicks := [], withdrawals := []
    sessions := [], batches := [] }

/-- State for the threshold scenario (second settlement reaches the limit). -/
def dbThreshold : DB :=
  { users := [aliceRow], posts := [limitTwoPost]
    clicks := [{ userId := 2, postId := 1, rewardAmount := 15, clickedAt := 0 }]
    withdrawals := [], sessions := [], batches := [] }

/-- The submit-click body used by the concrete scenarios. -/
def bodyOne : SubmitBody := { postId := some 1, socialLink := none, autoApprove := none }

/-- A submit-click body carrying extra client-supplied fields. -/
def decoratedBody : SubmitBody :=
  { postId := some 1, socialLink := some "https://spoof.example", autoApprove := some true }

/-- A user with a thousand rupees of earnings. -/
def richRow : UserRow :=
  { id := 1, email := "rich@mail.test", instagramId := "rich_ig", batchLetter := "A"
    earnings := 1000 * rupee, isVerified := true, isAdmin := false, permanentLoginCode := none }

/-- The withdrawal request body used by the concrete scenarios. -/
def richBody : WithdrawBody :=
  { method := some "amazon", amount := .num (100 * rupee)
    accountDetails := some "rich@mail.test" }

/-- A phonepe withdrawal whose destination is not a 10-digit number. -/
def badShapeBody : WithdrawBody :=
  { method := some "phonepe", amount := .num (500 * rupee)
    accountDetails := some "not-a-number" }

/-- An amazon withdrawal with an arbitrary destination string. -/
def anyShapeBody : WithdrawBody :=
  { method := some "amazon", amount := .num (100 * rupee)
    accountDetails := some "anything at all" }

/-- A paytm withdrawal of 0.05 rupees — under every documented minimum. -/
def paytmTinyBody : WithdrawBody :=
  { method := some "paytm", amount := .num 5
    accountDetails := some "x" }

/-- State for the withdrawal scenarios. -/
def dbRich : DB :=
  { users := [richRow], posts := [], clicks := [], withdrawals := []
    sessions := [], batches := [] }

/-- State with one pending withdrawal of 30 for the resolution scenarios. -/
def dbPending : DB :=
  { users := [{ richRow with earnings := 970 * rupee }], posts := [], clicks := []
    withdrawals := [{ id := 1, userId := 1, amount := 30 * rupee, method := "amazon"
                      accountDetails := "rich@mail.test", status := .pending
                      adminNotes := none, createdAt := 0, processedAt := none }]
    sessions := [], batches := [] }

/-- State with an already-declined withdrawal. -/
def dbDeclinedAlready : DB :=
  { users := [richRow], posts := [], clicks := []
    withdrawals := [{ id := 1, userId := 1, amount := 30 * rupee, method := "amazon"
                      accountDetails := "rich@mail.test", status := .declined
                      adminNotes := none, createdAt := 0, processedAt := some 2 }]
    sessions := [], batches := [] }

/-- State with a session created at time 0 (expiring after seven days). -/
def dbSession : DB :=
  { users := [aliceRow], posts := [], clicks := [], withdrawals := []
    sessions := [{ id := "token", userId := 1, expiresAt := sevenDaysMs }], batches := [] }

/-- The session state after a slide at time `oneDayMs`. -/
def dbSessionSlid : DB :=
  { users := [aliceRow], posts := [], clicks := [], withdrawals := []
    sessions := [{ id := "token", userId := 1, expiresAt := oneDayMs + sevenDaysMs }]
    batches := [] }

/-- State holding a user whose permanent code is "173442", plus the seeded
batch `A`. -/
def dbPermTaken : DB :=
  { users := [{ aliceRow with permanentLoginCode := some "173442" }]
    posts := [], clicks := [], withdrawals := [], sessions := []
    batches := [{ letter := "A", userCount := 3, isActive := true }] }

/-- State in which every batch is at capacity and the last letter is `Z`. -/
def dbBatchFull : DB :=
  { users := [], posts := [], clicks := [], withdrawals := [], sessions := []
    batches := [{ letter := "Z", userCount := 1000, isActive := true }] }

/-- A user with balance but an unverified email. -/
def unverifiedRow : UserRow := { richRow with isVerified := false }

/-- The unverified user's valid session. -/
def tokSession : Session := { id := "tok", userId := 1, expiresAt := sevenDaysMs }

/-- An unverified user holding a valid session, an active unclicked post,
and enough balance to withdraw: the state for the verification-gap
scenario. -/
def dbUnverified : DB :=
  { users := [unverifiedRow]
    posts := [plainPost], clicks := [], withdrawals := []
    sessions := [tokSession], batches := [] }

/-- No two users carry the same permanent login code: the invariant that
the `permanent_login_code VARCHAR(6) UNIQUE` constraint maintains. -/
def PermDistinct (users : List UserRow) : Prop :=
  users.Pairwise (fun a b =>
    a.permanentLoginCode = none ∨ a.permanentLoginCode ≠ b.permanentLoginCode)

/-! ### Shared helper lemmas -/

/-- `find?` commutes with a `map` that does not change the predicate's
verdict (updating a row in place does not change which row a keyed lookup
finds). -/
theorem find?_map_of_pred {α : Type} (f : α → α) (p : α → Bool) (l : List α)
    (h : ∀ x, p (f x) = p x) : (l.map f).find? p = (l.find? p).map f := by
  have hp : p ∘ f = p := funext h
  rw [List.find?_map, hp]

/-- Looking a user up after `creditUser` finds the same row with the
credited earnings. -/
theorem creditUser_find? (uid : Nat) (amt : Money) (users : List UserRow) (user : UserRow)
    (h : users.find? (fun x => x.id == uid) = some user) :
    (creditUser uid amt users).find? (fun x => x.id == uid) =
      some { user with earnings := user.earnings + amt } := by
  unfold creditUser
  rw [find?_map_of_pred _ _ _ ?hpred, h]
  · have hu : user.id = uid := by simpa using List.find?_some h
    simp [hu]
  case hpred =>
    intro x
    by_cases hx : x.id == uid <;> simp [hx]

/-- Looking a user up after `debitUser` finds the same row with the
debited earnings. -/
theorem debitUser_find? (uid : Nat) (amt : Money) (users : List UserRow) (user : UserRow)
    (h : users.find? (fun x => x.id == uid) = some user) :
    (debitUser uid amt users).find? (fun x => x.id == uid) =
      some { user with earnings := user.earnings - amt } := by
  unfold debitUser
  rw [find?_map_of_pred _ _ _ ?hpred, h]
  · have hu : user.id = uid := by simpa using List.find?_some h
    simp [hu]
  case hpred =>
    intro x
    by_cases hx : x.id == uid <;> simp [hx]

/-- Looking a post up after `setClickCount` finds the same row with the
new counter. -/
theorem setClickCount_find? (pid n : Nat) (posts : List Post) (post : Post)
    (h : posts.find? (fun x => x.id == pid) = some post) :
    (setClickCount pid n posts).find? (fun x => x.id == pid) =
      some { post with clickCount := n } := by
  unfold setClickCount
  rw [find?_map_of_pred _ _ _ ?hpred, h]
  · have hp : post.id = pid := by simpa using List.find?_some h
    simp [hp]
  case hpred =>
    intro x
    by_cases hx : x.id == pid <;> simp [hx]

/-- `getNextBatch` reads and writes only the `batches` table. -/
theorem getNextBatch_users (db : DB) : (getNextBatch db).2.users = db.users := by
  unfold getNextBatch
  split
  · rfl
  · dsimp only
    split <;> rfl

/-! ### Claim C1 — duplicate submission -/

/-- Claim C1 as stated is refuted by auto-delete: with an auto-delete post
of click limit 1, the first submit-click by user 1 succeeds (settling and
auto-deleting the post), and a second submit-click by the same user for
the same post returns NotFound — not the Conflict/duplicate-submission
error the claim requires (it still changes nothing). -/
theorem submitClick_second_after_autodelete_cex :
    (submitClick 1 0 bodyOne dbAuto).1 = SubmitResult.ok 15 true ∧
    submitClick 1 5 bodyOne (submitClick 1 0 bodyOne dbAuto).2 =
      (SubmitResult.notFound, (submitClick 1 0 bodyOne dbAuto).2) ∧
    SubmitResult.notFound ≠ SubmitResult.alreadySubmitted := by
  refine ⟨by decide, by decide, by decide⟩

/-- Claim C1 (amended): after a successful settlement by user `u` for post
`pid` that did not auto-delete the post, a second submit-click for the
same pair returns the duplicate-submission (Conflict) error and leaves the
database — click table, wallet balances, click counters — unchanged; if
the first settlement auto-deleted the post, the second instead fails with
NotFound and likewise changes nothing. Either way at most one click row
for the pair ever exists. -/
theorem submitClick_second_submission (u now now2 : Nat) (b : SubmitBody) (db : DB)
    (pid : Nat) (post : Post)
    (hb : b.postId = some pid)
    (hfind : db.posts.find? (fun p => p.id == pid) = some post)
    (hact : post.isActive = true)
    (hnew : db.clicks.any (fun c => c.userId == u && c.postId == pid) = false) :
    ∃ db2,
      submitClick u now b db = (.ok post.rewardAmount (autoDeleteFires post), db2) ∧
      (autoDeleteFires post = false →
        submitClick u now2 b db2 = (.alreadySubmitted, db2)) ∧
      (autoDeleteFires post = true →
        submitClick u now2 b db2 = (.notFound, db2)) := by
  cases hAD : autoDeleteFires post with
  | false =>
    refine ⟨{ db with
        clicks := { userId := u, postId := pid, rewardAmount := post.rewardAmount,
                    clickedAt := now } :: db.clicks
        users := creditUser u post.rewardAmount db.users
        posts := setClickCount pid (post.clickCount + 1) db.posts },
      ?_, fun _ => ?_, fun h => by simp at h⟩
    · simp [submitClick, hb, hfind, hact, hnew, hAD]
    · have hfind2 := setClickCount_find? pid (post.clickCount + 1) db.posts post hfind
      simp [submitClick, hb, hfind2, hact]
  | true =>
    refine ⟨{ db with
        clicks := ({ userId := u, postId := pid, rewardAmount := post.rewardAmount,
                     clickedAt := now } :: db.clicks).filter (fun c => c.postId != pid)
        users := creditUser u post.rewardAmount db.users
        posts := (setClickCount pid (post.clickCount + 1) db.posts).filter
          (fun p => p.id != pid) },
      ?_, fun h => by simp at h, fun _ => ?_⟩
    · simp [submitClick, hb, hfind, hact, hnew, hAD]
    · have hnone : ((setClickCount pid (post.clickCount + 1) db.posts).filter
          (fun p => p.id != pid)).find? (fun p => p.id == pid) = none := by
        apply List.find?_eq_none.2
        intro x hx
        have := (List.mem_filter.1 hx).2
        simp at this
        simp [this]
      simp [submitClick, hb, hnone]

/-- Witness for the amended Claim C1 at a concrete state. -/
theorem submitClick_second_submission_witness :
    ∃ db2,
      submitClick 1 0 bodyOne dbPlain =
        (.ok plainPost.rewardAmount (autoDeleteFires plainPost), db2) ∧
      (autoDeleteFires plainPost = false →
        submitClick 1 5 bodyOne db2 = (.alreadySubmitted, db2)) ∧
      (autoDeleteFires plainPost = true →
        submitClick 1 5 bodyOne db2 = (.notFound, db2)) :=
  submitClick_second_submission 1 0 5 bodyOne dbPlain 1 plainPost
    (by decide) (by decide) (by decide) (by decide)

/-! ### Claim C2 — balance conservation on withdrawal decline -/

/-- Claim C2: for a user with balance `B`, a valid withdrawal request of
amount `q` (positive, not under the method minimum, at most the balance)
debits exactly `q`, and declining the resulting pending withdrawal — with
no other wallet mutation in between — credits back exactly the original
`q` (the full amount, not the payout-adjusted one), restoring the balance
to `B`. -/
theorem withdraw_decline_conservation (u now now2 : Nat) (m acct : String) (q : Money)
    (notes : Option String) (db : DB) (user : UserRow)
    (hfind : db.users.find? (fun x => x.id == u) = some user)
    (hq : 0 < q)
    (hmin : (match minAmounts m with | some mm => decide (q < mm) | none => false) = false)
    (hbal : q ≤ user.earnings) :
    (withdraw u now { method := some m, amount := .num q, accountDetails := some acct } db).1
      = .ok q m ∧
    (withdraw u now { method := some m, amount := .num q, accountDetails := some acct } db).2.users.find?
        (fun x => x.id == u) = some { user with earnings := user.earnings - q } ∧
    (processWithdrawal (nextWithdrawalId db) "declined" notes now2
        (withdraw u now { method := some m, amount := .num q, accountDetails := some acct } db).2).1
      = .ok (nextWithdrawalId db) .declined q true ∧
    (processWithdrawal (nextWithdrawalId db) "declined" notes now2
        (withdraw u now { method := some m, amount := .num q, accountDetails := some acct } db).2).2.users.find?
        (fun x => x.id == u) = some user := by
  have hnle : ¬ q ≤ 0 := not_le.2 hq
  have hnlt : ¬ user.earnings < q := not_lt.2 hbal
  have hw : withdraw u now { method := some m, amount := .num q, accountDetails := some acct } db
      = (.ok q m,
        { db with
            withdrawals :=
              { id := nextWithdrawalId db, userId := u, amount := q, method := m
                accountDetails := acct, status := .pending, adminNotes := none
                createdAt := now, processedAt := none } :: db.withdrawals
            users := debitUser u q db.users }) := by
    simp [withdraw, hfind, hmin, hnle, hnlt]
  rw [hw]
  have hfind1 := debitUser_find? u q db.users user hfind
  have hmem := List.mem_of_find?_eq_some hfind1
  have hpred : user.id = u := by
    simpa using List.find?_some hfind1
  have hall : ((debitUser u q db.users).all (fun x => x.id != u)) = false := by
    rw [Bool.eq_false_iff]
    intro hall
    have := List.all_eq_true.1 hall _ hmem
    simp at this
    exact this hpred
  have hp : processWithdrawal (nextWithdrawalId db) "declined" notes now2
      ({ db with
          withdrawals :=
            { id := nextWithdrawalId db, userId := u, amount := q, method := m
              accountDetails := acct, status := .pending, adminNotes := none
              createdAt := now, processedAt := none } :: db.withdrawals
          users := debitUser u q db.users } : DB)
      = (.ok (nextWithdrawalId db) .declined q true,
        { db with
            withdrawals :=
              (({ id := nextWithdrawalId db, userId := u, amount := q, method := m
                  accountDetails := acct, status := .pending, adminNotes := none
                  createdAt := now, processedAt := none } : Withdrawal) :: db.withdrawals).map
                (fun x => if x.id == nextWithdrawalId db then
                  { x with status := WStatus.declined, processedAt := some now2, adminNotes := notes }
                  else x)
            users := creditUser u q (debitUser u q db.users) }) := by
    simp only [processWithdrawal, List.find?_cons, beq_self_eq_true, Bool.and_self, if_true]
    simp [hall]
  rw [hp]
  have hfind2 := creditUser_find? u q (debitUser u q db.users)
    { user with earnings := user.earnings - q } hfind1
  refine ⟨rfl, hfind1, rfl, ?_⟩
  simpa [sub_add_cancel] using hfind2

/-- Witness for Claim C2 at a concrete state: balance 1000 rupees, an
amazon withdrawal of 100 rupees, then a decline. -/
theorem withdraw_decline_conservation_witness :
    (withdraw 1 0 richBody dbRich).1 = .ok (100 * rupee) "amazon" ∧
    (withdraw 1 0 richBody dbRich).2.users.find? (fun x => x.id == 1)
      = some { richRow with earnings := richRow.earnings - 100 * rupee } ∧
    (processWithdrawal (nextWithdrawalId dbRich) "declined" (some "no") 9
        (withdraw 1 0 richBody dbRich).2).1
      = .ok (nextWithdrawalId dbRich) .declined (100 * rupee) true ∧
    (processWithdrawal (nextWithdrawalId dbRich) "declined" (some "no") 9
        (withdraw 1 0 richBody dbRich).2).2.users.find? (fun x => x.id == 1)
      = some richRow :=
  withdraw_decline_conservation 1 0 9 "amazon" "rich@mail.test" (100 * rupee)
    (some "no") dbRich richRow (by decide) (by decide) (by decide) (by decide)

/-! ### Claim C3 — auto-delete threshold -/

/-- Claim C3: on a post with click limit `N` and auto-delete enabled, a
settlement that brings the counter to at least `N` succeeds with
`autoDeleted = true`, removes the post and every one of its click rows
(including the just-inserted, triggering one), and every subsequent
submit-click against that post id fails with NotFound and changes nothing;
a settlement that leaves the counter strictly below `N` keeps the post in
place with the counter incremented and reports `autoDeleted = false`. -/
theorem autoDelete_threshold (u u2 now now2 : Nat) (b : SubmitBody) (db : DB)
    (pid N : Nat) (post : Post)
    (hb : b.postId = some pid)
    (hfind : db.posts.find? (fun p => p.id == pid) = some post)
    (hact : post.isActive = true)
    (hnew : db.clicks.any (fun c => c.userId == u && c.postId == pid) = false)
    (hauto : post.autoDeleteEnabled = true)
    (hlim : post.clickLimit = some N)
    (hN : 0 < N) :
    (N ≤ post.clickCount + 1 →
      ∃ db2, submitClick u now b db = (.ok post.rewardAmount true, db2) ∧
        db2.posts.find? (fun p => p.id == pid) = none ∧
        (∀ c ∈ db2.clicks, c.postId ≠ pid) ∧
        (∀ b2 : SubmitBody, b2.postId = some pid →
          submitClick u2 now2 b2 db2 = (.notFound, db2))) ∧
    (post.clickCount + 1 < N →
      ∃ db2, submitClick u now b db = (.ok post.rewardAmount false, db2) ∧
        db2.posts.find? (fun p => p.id == pid)
          = some { post with clickCount := post.clickCount + 1 }) := by
  constructor
  · intro hth
    have hAD : autoDeleteFires post = true := by
      simp [autoDeleteFires, hauto, hlim, hth, Nat.pos_iff_ne_zero.1 hN]
    have hnone : ((setClickCount pid (post.clickCount + 1) db.posts).filter
        (fun p => p.id != pid)).find? (fun p => p.id == pid) = none := by
      apply List.find?_eq_none.2
      intro x hx
      have := (List.mem_filter.1 hx).2
      simp at this
      simp [this]
    refine ⟨{ db with
        clicks := ({ userId := u, postId := pid, rewardAmount := post.rewardAmount,
                     clickedAt := now } :: db.clicks).filter (fun c => c.postId != pid)
        users := creditUser u post.rewardAmount db.users
        posts := (setClickCount pid (post.clickCount + 1) db.posts).filter
          (fun p => p.id != pid) }, ?_, hnone, ?_, ?_⟩
    · simp [submitClick, hb, hfind, hact, hnew, hAD]
    · intro c hc
      have := (List.mem_filter.1 hc).2
      simpa using this
    · intro b2 hb2
      simp [submitClick, hb2, hnone]
  · intro hth
    have hAD : autoDeleteFires post = false := by
      simp [autoDeleteFires, hauto, hlim]
      omega
    have hfind2 := setClickCount_find? pid (post.clickCount + 1) db.posts post hfind
    refine ⟨{ db with
        clicks := { userId := u, postId := pid, rewardAmount := post.rewardAmount,
                    clickedAt := now } :: db.clicks
        users := creditUser u post.rewardAmount db.users
        posts := setClickCount pid (post.clickCount + 1) db.posts }, ?_, hfind2⟩
    simp [submitClick, hb, hfind, hact, hnew, hAD]

/-- Witness for Claim C3: a click-limit-2 auto-delete post already settled
once (counter 1); user 1's settlement is the second and triggers the
removal. -/
theorem autoDelete_threshold_witness :
    (2 ≤ limitTwoPost.clickCount + 1 →
      ∃ db2, submitClick 1 7 bodyOne dbThreshold
          = (.ok limitTwoPost.rewardAmount true, db2) ∧
        db2.posts.find? (fun p => p.id == 1) = none ∧
        (∀ c ∈ db2.clicks, c.postId ≠ 1) ∧
        (∀ b2 : SubmitBody, b2.postId = some 1 →
          submitClick 3 8 b2 db2 = (.notFound, db2))) ∧
    (limitTwoPost.clickCount + 1 < 2 →
      ∃ db2, submitClick 1 7 bodyOne dbThreshold
          = (.ok limitTwoPost.rewardAmount false, db2) ∧
        db2.posts.find? (fun p => p.id == 1)
          = some { limitTwoPost with clickCount := limitTwoPost.clickCount + 1 }) :=
  autoDelete_threshold 1 3 7 8 bodyOne dbThreshold 1 2 limitTwoPost
    (by decide) (by decide) (by decide) (by decide) (by decide) (by decide) (by decide)

/-! ### Claim C4 — only pending withdrawals are resolvable -/

/-- Claim C4: resolving a withdrawal succeeds only from `pending`: when no
pending row with the given id exists (in particular when the withdrawal is
already `approved` or `declined`), processing fails with the
not-found-or-already-processed error and the database is returned
untouched; and an approval never mutates any user's balance — it only sets
the withdrawal's status, resolution timestamp and note. -/
theorem processWithdrawal_pending_guard (wid : Nat) (notes : Option String) (now : Nat)
    (db : DB) :
    (∀ r db2, processWithdrawal wid "approved" notes now db = (r, db2) →
      db2.users = db.users ∧
      (db2.withdrawals = db.withdrawals ∨
        db2.withdrawals = db.withdrawals.map (fun x =>
          if x.id == wid then
            { x with status := WStatus.approved, processedAt := some now, adminNotes := notes }
          else x))) ∧
    (∀ s : String,
      db.withdrawals.find? (fun w => w.id == wid && w.status == WStatus.pending) = none →
      (s = "approved" ∨ s = "declined") →
      processWithdrawal wid s notes now db = (.notFoundOrProcessed, db)) := by
  constructor
  · intro r db2 h
    cases hf : db.withdrawals.find? (fun w => w.id == wid && w.status == WStatus.pending) with
    | none =>
      simp [processWithdrawal, hf] at h
      simp [← h.2]
    | some w =>
      cases hall : db.users.all (fun x => x.id != w.userId) with
      | true =>
        simp [processWithdrawal, hf, hall] at h
        simp [← h.2]
      | false =>
        simp [processWithdrawal, hf, hall] at h
        simp [← h.2]
  · intro s hf hs
    rcases hs with hs | hs <;> subst hs <;> simp [processWithdrawal, hf]

/-- Witness for Claim C4: declining an already-declined withdrawal fails
with the already-processed error and leaves the state untouched. -/
theorem processWithdrawal_pending_guard_witness :
    processWithdrawal 1 "declined" none 9 dbDeclinedAlready
      = (.notFoundOrProcessed, dbDeclinedAlready) :=
  (processWithdrawal_pending_guard 1 none 9 dbDeclinedAlready).2 "declined"
    (by decide) (Or.inr rfl)

/-! ### Claim C5 — withdrawal request validation -/

/-- Claim C5 as stated is refuted on the server: a phonepe withdrawal whose
destination is not a 10-digit number succeeds, and a paytm withdrawal of
0.05 rupees — below the claimed global minimum and any method minimum —
succeeds too (the `minAmounts` object has no `paytm` entry, and comparing
against `undefined` is false in JS). The destination shape and the global
minimum of 30 live only in the client UI. -/
theorem withdraw_validation_cex :
    (withdraw 1 0 badShapeBody dbRich).1 = .ok (500 * rupee) "phonepe" ∧
    (withdraw 1 0 paytmTinyBody dbRich).1 = .ok 5 "paytm" := by
  refine ⟨by decide, by decide⟩

/-- Claim C5 (amended): server-side, a withdrawal request with all three
fields present and a numeric amount succeeds exactly when the amount is
positive, at least the method minimum for the methods that have one
(amazon: 100, phonepe: 500; paytm has none, and no global minimum is
enforced), and at most the caller's balance — for any destination string
whatsoever; and every failing request leaves the database unchanged. -/
theorem withdraw_validation (u now : Nat) (m acct : String) (q : Money) (db : DB)
    (user : UserRow)
    (hfind : db.users.find? (fun x => x.id == u) = some user) :
    ((withdraw u now { method := some m, amount := .num q, accountDetails := some acct } db).1
        = .ok q m ↔
      (0 < q ∧ (∀ mm, minAmounts m = some mm → mm ≤ q) ∧ q ≤ user.earnings)) ∧
    (∀ body : WithdrawBody,
      (∀ q2 m2, (withdraw u now body db).1 ≠ .ok q2 m2) →
      (withdraw u now body db).2 = db) := by
  constructor
  · set W := withdraw u now { method := some m, amount := JsNum.num q, accountDetails := some acct } db with hWdef
    by_cases hq : q ≤ 0
    · have hres : W.1 = .invalidAmount := by
        rw [hWdef]; simp [withdraw, hq]
      rw [hres]
      constructor
      · intro h; cases h
      · rintro ⟨h1, -, -⟩
        exact ((not_lt.2 hq) h1).elim
    · cases hminc : (match minAmounts m with
          | some mm => decide (q < mm)
          | none => false) with
      | true =>
        have hres : W.1 = .belowMethodMinimum m := by
          rw [hWdef]; simp [withdraw, hq, hminc]
        rw [hres]
        constructor
        · intro h; cases h
        · rintro ⟨-, h2, -⟩
          cases hmm : minAmounts m with
          | none => rw [hmm] at hminc; simp at hminc
          | some mm =>
            rw [hmm] at hminc
            simp at hminc
            exact ((not_le.2 hminc) (h2 mm hmm)).elim
      | false =>
        by_cases hbal : user.earnings < q
        · have hres : W.1 = .insufficientBalance := by
            rw [hWdef]; simp [withdraw, hq, hminc, hfind, hbal]
          rw [hres]
          constructor
          · intro h; cases h
          · rintro ⟨-, -, h3⟩
            exact ((not_lt.2 h3) hbal).elim
        · have hres : W.1 = .ok q m := by
            rw [hWdef]; simp [withdraw, hq, hminc, hfind, hbal]
          rw [hres]
          constructor
          · intro _
            refine ⟨lt_of_not_le hq, ?_, not_lt.1 hbal⟩
            intro mm hmm
            rw [hmm] at hminc
            simp at hminc
            exact hminc
          · intro _; rfl
  · intro body hfail
    rcases body with ⟨mo, am, ao⟩
    cases mo with
    | none => cases am <;> simp [withdraw]
    | some mv =>
      cases ao with
      | none => cases am <;> simp [withdraw]
      | some av =>
        cases am with
        | missing => simp [withdraw]
        | nan => simp [withdraw]
        | num qv =>
          by_cases hq : qv ≤ 0
          · simp [withdraw, hq]
          · cases hminc : (match minAmounts mv with
                | some mm => decide (qv < mm)
                | none => false) with
            | true => simp [withdraw, hq, hminc]
            | false =>
              cases hfu : db.users.find? (fun x => x.id == u) with
              | none => simp [withdraw, hq, hminc, hfu]
              | some uu =>
                by_cases hbal : uu.earnings < qv
                · simp [withdraw, hq, hminc, hfu, hbal]
                · exact absurd (by simp [withdraw, hq, hminc, hfu, hbal])
                    (hfail qv mv)

/-- Witness for the amended Claim C5 at a concrete state. -/
theorem withdraw_validation_witness :
    ((withdraw 1 0 anyShapeBody dbRich).1 = .ok (100 * rupee) "amazon" ↔
      (0 < (100 * rupee : Money) ∧
        (∀ mm, minAmounts "amazon" = some mm → mm ≤ 100 * rupee) ∧
        (100 * rupee : Money) ≤ richRow.earnings)) ∧
    (∀ body : WithdrawBody,
      (∀ q2 m2, (withdraw 1 0 body dbRich).1 ≠ .ok q2 m2) →
      (withdraw 1 0 body dbRich).2 = dbRich) :=
  withdraw_validation 1 0 "amazon" "anything at all" (100 * rupee) dbRich richRow
    (by decide)

/-! ### Claim C6 — session sliding -/

/-- Claim C6 as stated is refuted: `GET /api/auth/me` is an authenticated
endpoint (it accepts and validates the session token), yet using a
seven-day session one day after issue leaves its expiry at the original
`sevenDaysMs` instead of recomputing it as `oneDayMs + sevenDaysMs` — the
endpoint performs no write at all. -/
theorem session_sliding_cex :
    authMe (some "token") none oneDayMs dbSession = (.ok aliceRow, dbSession) ∧
    (∀ s ∈ dbSession.sessions, s.expiresAt = sevenDaysMs) ∧
    sevenDaysMs ≠ oneDayMs + sevenDaysMs := by
  refine ⟨by decide, by decide, by decide⟩

/-- Claim C6 (amended): requests that pass through `sessionMiddleware`
(every `/api/user` and `/api/admin` route, authenticated via the cookie)
do slide the session: after a successful authentication at time `now`,
the session row's expiry is exactly `now + sevenDaysMs` — so a session
used at `T` and again at `T + oneDayMs` ends up expiring at
`T + oneDayMs + sevenDaysMs`. The slide does not extend to endpoints that
bypass `sessionMiddleware`: `GET /api/auth/me` (and the router-level
`sessionAuth`) validate the token without ever touching the expiry. -/
theorem sessionMiddleware_slides (sid : String) (now : Nat) (db db1 : DB) (u : UserRow)
    (h : sessionMiddleware (some sid) now db = (.ok u, db1)) :
    ∀ s ∈ db1.sessions, s.id = sid → s.expiresAt = now + sevenDaysMs := by
  cases hf : findValidSession sid now db with
  | none => simp [sessionMiddleware, hf] at h
  | some p =>
    obtain ⟨sess, usr⟩ := p
    simp only [sessionMiddleware, hf, Prod.mk.injEq] at h
    intro s hs hid
    rw [← h.2] at hs
    simp only [List.mem_map] at hs
    obtain ⟨x, hx, hfx⟩ := hs
    by_cases hxid : x.id == sid
    · rw [if_pos hxid] at hfx
      rw [← hfx]
    · rw [if_neg hxid] at hfx
      subst hfx
      exact absurd hid (by simpa using hxid)

/-- Witness for the amended Claim C6: the concrete session used one day
after issue has its expiry slid to `oneDayMs + sevenDaysMs`. -/
theorem sessionMiddleware_slides_witness :
    ({ id := "token", userId := 1, expiresAt := oneDayMs + sevenDaysMs } : Session).expiresAt
      = oneDayMs + sevenDaysMs :=
  sessionMiddleware_slides "token" oneDayMs dbSession dbSessionSlid aliceRow (by decide)
    { id := "token", userId := 1, expiresAt := oneDayMs + sevenDaysMs }
    (by decide) (by decide)

/-! ### Claim C7 — permanent code uniqueness -/

/-- Claim C7 as stated is refuted: the permanent code is the last four
digits of the registration timestamp glued to a two-digit random draw, so
two registrations 890 seconds apart with the same draw generate the same
code; and a generated code that collides with a persisted one is not
retried — the registration fails outright with the Registration-conflict
error, leaving the database unchanged. -/
theorem permanent_code_collision_cex :
    generateUniquePermanentCode 1111734 42 = generateUniquePermanentCode 2001734 42 ∧
    registerUser "new@mail.test" "new_ig" 1111734 42 dbPermTaken
      = (.registrationConflict, dbPermTaken) := by
  refine ⟨by decide, by decide⟩

/-- Claim C7 (amended): no two persisted users ever hold the same
permanent code — the `UNIQUE` constraint on `permanent_login_code` makes
registration preserve pairwise-distinct codes in every branch — but a
generated collision is detected by the constraint and surfaces as a failed
registration (`registrationConflict`), never retried. -/
theorem registerUser_preserves_code_uniqueness (email ig : String) (nowMs rand : Nat)
    (db : DB) (h : PermDistinct db.users) :
    PermDistinct (registerUser email ig nowMs rand db).2.users := by
  unfold registerUser
  by_cases h1 : (db.users.filter fun u => u.email == email && u.isVerified).length > 0
  · simpa [h1] using h
  · by_cases h2 : (db.users.filter fun u => u.instagramId == ig).length > 0
    · simpa [h1, h2] using h
    · cases hmax : ((db.users.filter fun u => u.email == email && !u.isVerified).map
          UserRow.id).max? with
      | none =>
        by_cases hany : ((getNextBatch db).2.users.any
            (fun u => u.permanentLoginCode == some (generateUniquePermanentCode nowMs rand))) = true
        · simpa [h1, h2, hmax, hany] using h
        · rw [Bool.not_eq_true] at hany
          have husers := getNextBatch_users db
          simp only [registerUser, h1, h2, hmax, if_false, if_true] at *
          simp only [PermDistinct] at h ⊢
          simp [h1, h2, hmax, hany]
          constructor
          · intro b hb
            rw [husers] at hb
            rw [husers] at hany
            have hnb := List.any_eq_false.mp hany b hb
            simp at hnb
            intro hcontra
            exact hnb hcontra.symm
          · rw [husers]
            exact h
      | some i =>
        have hsub : PermDistinct (db.users.filter fun u => u.id != i) :=
          List.Pairwise.filter _ h
        by_cases hany : ((getNextBatch { db with users := db.users.filter fun u => u.id != i }).2.users.any
            (fun u => u.permanentLoginCode == some (generateUniquePermanentCode nowMs rand))) = true
        · simpa [h1, h2, hmax, hany] using h
        · rw [Bool.not_eq_true] at hany
          have husers := getNextBatch_users { db with users := db.users.filter fun u => u.id != i }
          simp only [PermDistinct] at hsub ⊢
          simp [h1, h2, hmax, hany]
          constructor
          · intro b hb
            rw [husers] at hb
            rw [husers] at hany
            have hnb := List.any_eq_false.mp hany b hb
            simp at hnb
            intro hcontra
            exact hnb hcontra.symm
          · rw [husers]
            exact hsub

/-- Witness for the amended Claim C7: registering against the concrete
state with code "173442" already taken keeps the persisted codes pairwise
distinct. -/
theorem registerUser_preserves_code_uniqueness_witness :
    PermDistinct (registerUser "new@mail.test" "new_ig" 999 7 dbPermTaken).2.users :=
  registerUser_preserves_code_uniqueness "new@mail.test" "new_ig" 999 7 dbPermTaken
    (by unfold PermDistinct; decide)

/-! ### Claim C8 — settlement ignores extra payload fields -/

/-- Claim C8: the settlement result depends on nothing in the payload but
the post id — two submit-click requests differing only in extra fields
(`socialLink`, `autoApprove`, or any claimed reward) produce identical
results and identical states — and on success the returned reward and the
reward frozen into the click row always equal the stored post's
`reward_amount`. -/
theorem submitClick_payload_independent (u now : Nat) (b1 b2 : SubmitBody) (db : DB)
    (h : b1.postId = b2.postId) :
    submitClick u now b1 db = submitClick u now b2 db ∧
    (∀ pid post r ad db2,
      b1.postId = some pid →
      db.posts.find? (fun p => p.id == pid) = some post →
      submitClick u now b1 db = (.ok r ad, db2) →
      r = post.rewardAmount ∧
      (ad = false → db2.clicks =
        { userId := u, postId := pid, rewardAmount := post.rewardAmount,
          clickedAt := now } :: db.clicks)) := by
  constructor
  · unfold submitClick
    rw [h]
  · intro pid post r ad db2 hb hfind heq
    simp only [submitClick, hb, hfind] at heq
    by_cases hact : post.isActive = false
    · rw [if_pos hact] at heq
      simp at heq
    · rw [if_neg hact] at heq
      by_cases hclick : (db.clicks.any fun c => c.userId == u && c.postId == pid) = true
      · rw [if_pos hclick] at heq
        simp at heq
      · rw [if_neg hclick] at heq
        by_cases hAD : autoDeleteFires post = true
        · simp only [hAD, if_true, Prod.mk.injEq, SubmitResult.ok.injEq] at heq
          obtain ⟨⟨heqr, heqad⟩, heqdb⟩ := heq
          refine ⟨heqr.symm, fun hfalse => ?_⟩
          rw [← heqad] at hfalse
          cases hfalse
        · rw [if_neg hAD] at heq
          simp only [Prod.mk.injEq, SubmitResult.ok.injEq] at heq
          obtain ⟨⟨heqr, heqad⟩, heqdb⟩ := heq
          refine ⟨heqr.symm, fun _ => ?_⟩
          rw [← heqdb]

/-- Witness for Claim C8: a decorated request and the bare one coincide on
the concrete state, and the settled reward is the stored 0.15. -/
theorem submitClick_payload_independent_witness :
    submitClick 1 0 bodyOne dbPlain = submitClick 1 0 decoratedBody dbPlain ∧
    (∀ pid post r ad db2,
      bodyOne.postId = some pid →
      dbPlain.posts.find? (fun p => p.id == pid) = some post →
      submitClick 1 0 bodyOne dbPlain = (.ok r ad, db2) →
      r = post.rewardAmount ∧
      (ad = false → db2.clicks =
        { userId := 1, postId := pid, rewardAmount := post.rewardAmount,
          clickedAt := 0 } :: dbPlain.clicks)) :=
  submitClick_payload_independent 1 0 bodyOne decoratedBody dbPlain (by decide)

/-! ### Claim C9 — batch minting past the alphabet -/

/-- Claim C9 is right about the intent but the registration path is buggy:
with every batch at capacity and `Z` the last letter, the `/register`
route's `getNextBatch` mints `String.fromCharCode('Z'.charCodeAt(0) + 1)`
— the non-letter label `"["` — while the repository's other
implementation, `createNextBatch` in db/database.js, correctly mints
`"AA"` exactly as the claim describes. (When an active under-capacity
batch exists, both return the lowest such letter, as the claim's first
half states.) -/
theorem getNextBatch_mints_nonletter_after_Z :
    (∀ b ∈ dbBatchFull.batches, ¬(b.isActive = true ∧ b.userCount < 1000)) ∧
    (getNextBatch dbBatchFull).1 = "[" ∧
    ("[".toList.all Char.isAlpha) = false ∧
    (createNextBatch dbBatchFull).1 = "AA" ∧
    (getNextBatch dbPermTaken).1 = "A" := by
  refine ⟨by decide, by decide, by decide, by decide, by decide⟩

/-! ### Claim C10 — verification flag is never checked on money paths -/

/-- Sliding a session's expiry does not change which session a valid
lookup finds (session ids are a primary key, hence unique). -/
theorem find?_sessions_slide (sid : String) (now : Nat) (l : List Session) (s : Session)
    (hf : l.find? (fun t => t.id == sid && decide (now < t.expiresAt)) = some s)
    (huniq : ∀ t ∈ l, t.id = sid → t = s) :
    (l.map fun t => if t.id == sid then { t with expiresAt := now + sevenDaysMs } else t).find?
        (fun t => t.id == sid && decide (now < t.expiresAt))
      = some { s with expiresAt := now + sevenDaysMs } := by
  induction l with
  | nil => simp at hf
  | cons a tl ih =>
    by_cases ha : (a.id == sid) = true
    · have haeq : a = s := huniq a (List.mem_cons_self a tl) (by simpa using ha)
      subst haeq
      simp only [List.map_cons]
      rw [if_pos ha]
      apply List.find?_cons_of_pos
      simp only [ha, Bool.true_and]
      simp [sevenDaysMs]
    · have hpa : (a.id == sid && decide (now < a.expiresAt)) = false := by
        simp [Bool.eq_false_iff.2 ha]
      rw [List.find?_cons_of_neg _ (by simp [hpa])] at hf
      have huniq2 : ∀ t ∈ tl, t.id = sid → t = s :=
        fun t ht => huniq t (List.mem_cons_of_mem a ht)
      simp only [List.map_cons]
      rw [if_neg ha]
      rw [List.find?_cons_of_neg _ (by simp [hpa])]
      exact ih hf huniq2

/-- Claim C10: the deployed settlement and withdrawal endpoints
(`sessionMiddleware` then `sessionAuth` then the handler) gate access only
on a valid, unexpired session token; the caller's `is_verified` flag is
never consulted, so a user whose verified flag is false but who holds a
valid session successfully settles an active, not-yet-clicked post (and is
credited) and successfully withdraws under the usual amount checks (and is
debited). -/
theorem unverified_user_can_settle_and_withdraw
    (sid : String) (bearer : Option String) (now : Nat) (db : DB)
    (s : Session) (u : UserRow)
    (hsfind : db.sessions.find? (fun t => t.id == sid && decide (now < t.expiresAt)) = some s)
    (huniq : ∀ t ∈ db.sessions, t.id = sid → t = s)
    (huser : db.users.find? (fun x => x.id == s.userId) = some u)
    (hver : u.isVerified = false)
    (pid : Nat) (post : Post)
    (hfind : db.posts.find? (fun p => p.id == pid) = some post)
    (hact : post.isActive = true)
    (hnew : db.clicks.any (fun c => c.userId == u.id && c.postId == pid) = false)
    (m acct : String) (q : Money)
    (hq : 0 < q)
    (hmin : (match minAmounts m with | some mm => decide (q < mm) | none => false) = false)
    (hbal : q ≤ u.earnings) :
    (∃ db2, submitClickEndpoint (some sid) bearer now
        { postId := some pid, socialLink := none, autoApprove := none } db
        = (.handled (.ok post.rewardAmount (autoDeleteFires post)), db2) ∧
      db2.users.find? (fun x => x.id == u.id) =
        some { u with earnings := u.earnings + post.rewardAmount }) ∧
    (∃ db3, withdrawEndpoint (some sid) bearer now
        { method := some m, amount := .num q, accountDetails := some acct } db
        = (.handled (.ok q m), db3) ∧
      db3.users.find? (fun x => x.id == u.id) =
        some { u with earnings := u.earnings - q }) := by
  have hid : u.id = s.userId := by simpa using List.find?_some huser
  have huser1 : db.users.find? (fun x => x.id == u.id) = some u := by
    rw [hid]; exact huser
  have hsm : sessionMiddleware (some sid) now db
      = (.ok u,
        { db with sessions := db.sessions.map fun t =>
            if t.id == sid then { t with expiresAt := now + sevenDaysMs } else t }) := by
    simp [sessionMiddleware, findValidSession, hsfind, huser]
  have hslide := find?_sessions_slide sid now db.sessions s hsfind huniq
  have hfvs : findValidSession sid now
      ({ db with sessions := db.sessions.map fun t =>
          if t.id == sid then { t with expiresAt := now + sevenDaysMs } else t } : DB)
      = some ({ s with expiresAt := now + sevenDaysMs }, u) := by
    unfold findValidSession
    rw [show ({ db with sessions := db.sessions.map fun t =>
          if t.id == sid then { t with expiresAt := now + sevenDaysMs } else t } : DB).sessions
        = db.sessions.map fun t =>
          if t.id == sid then { t with expiresAt := now + sevenDaysMs } else t from rfl]
    rw [hslide]
    dsimp only
    rw [huser]
  have hsa : sessionAuth (some sid) bearer now
      ({ db with sessions := db.sessions.map fun t =>
          if t.id == sid then { t with expiresAt := now + sevenDaysMs } else t } : DB)
      = (.ok u,
        { db with sessions := db.sessions.map fun t =>
            if t.id == sid then { t with expiresAt := now + sevenDaysMs } else t }) := by
    simp only [sessionAuth, Option.orElse, hfvs]
  constructor
  · -- settlement
    cases hAD : autoDeleteFires post with
    | false =>
      refine ⟨{ db with
          sessions := db.sessions.map fun t =>
            if t.id == sid then { t with expiresAt := now + sevenDaysMs } else t
          clicks := { userId := u.id, postId := pid, rewardAmount := post.rewardAmount,
                      clickedAt := now } :: db.clicks
          users := creditUser u.id post.rewardAmount db.users
          posts := setClickCount pid (post.clickCount + 1) db.posts }, ?_, ?_⟩
      · simp only [submitClickEndpoint, hsm, hsa]
        simp [submitClick, hfind, hact, hnew, hAD]
      · exact creditUser_find? u.id post.rewardAmount db.users u huser1
    | true =>
      refine ⟨{ db with
          sessions := db.sessions.map fun t =>
            if t.id == sid then { t with expiresAt := now + sevenDaysMs } else t
          clicks := ({ userId := u.id, postId := pid, rewardAmount := post.rewardAmount,
                       clickedAt := now } :: db.clicks).filter (fun c => c.postId != pid)
          users := creditUser u.id post.rewardAmount db.users
          posts := (setClickCount pid (post.clickCount + 1) db.posts).filter
            (fun p => p.id != pid) }, ?_, ?_⟩
      · simp only [submitClickEndpoint, hsm, hsa]
        simp [submitClick, hfind, hact, hnew, hAD]
      · exact creditUser_find? u.id post.rewardAmount db.users u huser1
  · -- withdrawal
    have hnle : ¬ q ≤ 0 := not_le.2 hq
    have hnlt : ¬ u.earnings < q := not_lt.2 hbal
    refine ⟨{ db with
        sessions := db.sessions.map fun t =>
          if t.id == sid then { t with expiresAt := now + sevenDaysMs } else t
        withdrawals :=
          { id := nextWithdrawalId
              ({ db with sessions := db.sessions.map fun t =>
                  if t.id == sid then { t with expiresAt := now + sevenDaysMs } else t } : DB),
            userId := u.id, amount := q, method := m
            accountDetails := acct, status := .pending, adminNotes := none
            createdAt := now, processedAt := none } :: db.withdrawals
        users := debitUser u.id q db.users }, ?_, ?_⟩
    · simp only [withdrawEndpoint, hsm, hsa]
      simp [withdraw, huser1, hmin, hnle, hnlt]
    · exact debitUser_find? u.id q db.users u huser1

/-- Witness for Claim C10 at the concrete state: the unverified user both
settles and withdraws through the deployed endpoint chains. -/
theorem unverified_user_can_settle_and_withdraw_witness :
    (∃ db2, submitClickEndpoint (some "tok") none 5
        { postId := some 1, socialLink := none, autoApprove := none } dbUnverified
        = (.handled (.ok plainPost.rewardAmount (autoDeleteFires plainPost)), db2) ∧
      db2.users.find? (fun x => x.id == unverifiedRow.id) =
        some { unverifiedRow with
                 earnings := unverifiedRow.earnings + plainPost.rewardAmount }) ∧
    (∃ db3, withdrawEndpoint (some "tok") none 5
        { method := some "amazon", amount := .num (100 * rupee),
          accountDetails := some "any destination" } dbUnverified
        = (.handled (.ok (100 * rupee) "amazon"), db3) ∧
      db3.users.find? (fun x => x.id == unverifiedRow.id) =
        some { unverifiedRow with earnings := unverifiedRow.earnings - 100 * rupee }) :=
  unverified_user_can_settle_and_withdraw "tok" none 5 dbUnverified tokSession unverifiedRow
    (by decide) (by decide) (by decide) (by decide) 1 plainPost
    (by decide) (by decide) (by decide) "amazon" "any destination" (100 * rupee)
    (by decide) (by decide) (by decide)

end HelloBuddy
